import Mathlib

/-!
# ReduxSync (src/example.tsx): a shallow embedding

The repository is a single React component `ReduxSync` that synchronizes a
piece of Redux state between applications in one browser document via
bubbling `CustomEvent`s dispatched on `document`.

We embed:

* JS values (`Value`, with `Option Value` standing for a possibly-`undefined`
  value) and lodash's deep structural equality `isEqual`;
* the broadcaster effect (src/example.tsx lines 75-81) as a pure step
  function from the current input and the `previousReduxState` ref content to
  the new ref content and the list of dispatched events, plus an
  action-trace variant that records the order of the memory write and the
  dispatch;
* the DOM side (`document.addEventListener` / `removeEventListener` /
  `dispatchEvent`) as a small operational model over a list of live
  subscriptions;
* the listener (`listenForEvent` / `handleEvent`, lines 94-106) as the call
  log of the forwarding callback, and a JS-semantics variant for the case of
  an absent callback;
* the component lifecycle (mount, prop update with React's dependency-array
  gating of the two `useEffect`s).
-/

namespace ReduxSync

mutual

/-- JS values as synchronized by ReduxSync: primitives and plain objects.
`undefined` is represented one level up, by `Option Value`. -/
inductive Value where
  | vNull : Value
  | vBool : Bool → Value
  | vNum : Int → Value
  | vStr : String → Value
  | vObj : Fields → Value
deriving DecidableEq, Repr

/-- The key/value fields of a JS object literal, in insertion order. -/
inductive Fields where
  | nil : Fields
  | cons : String → Value → Fields → Fields
deriving DecidableEq, Repr

end

/-- The lodash `isEqual` check on possibly-`undefined` values: deep structural
equality; `isEqual(undefined, undefined)` is `true`. On our pure value
representation deep structural equality is equality. -/
def isEqual (a b : Option Value) : Bool := a == b

/-- A dispatched `CustomEvent`: its name, its `detail` payload (possibly
`undefined`) and its `bubbles` flag. -/
structure Event where
  name : String
  detail : Option Value
  bubbles : Bool
deriving DecidableEq, Repr

/-- Function `broadcastEvent` (src/example.tsx lines 86-92): builds the `CustomEvent`
with `detail := reduxState` and `bubbles := true`; dispatching is modelled by
returning the event. -/
def broadcastEvent (reduxState : Option Value) (eventName : String) : Event :=
  { name := eventName, detail := reduxState, bubbles := true }

/-- The body of the broadcaster `useEffect` (src/example.tsx lines 77-80):
if the input is not `isEqual` to the `previousReduxState` ref, write the ref
and dispatch; otherwise do nothing. Returns the new ref content and the
dispatched events. -/
def broadcasterEffect (reduxState : Option Value) (eventName : String)
    (previous : Option Value) : Option Value × List Event :=
  if !(isEqual reduxState previous) then
    (reduxState, [broadcastEvent reduxState eventName])
  else
    (previous, [])

/-- The spec's running example value `{example: 22}`. -/
def exampleState : Value := Value.vObj (Fields.cons "example" (Value.vNum 22) Fields.nil)

/-- The primitive side effects the broadcaster effect performs, in program
order: the `previousReduxState.current = reduxState` ref write (line 78) and
the `document.dispatchEvent` call inside `broadcastEvent` (lines 79, 91). -/
inductive Action where
  | setMemory : Option Value → Action
  | dispatch : Event → Action
deriving DecidableEq, Repr

/-- The broadcaster `useEffect` body again (src/example.tsx lines 77-80),
this time recording the primitive actions in the order the source performs
them: the ref write on line 78 strictly before the dispatch on line 79. -/
def broadcasterEffectActions (reduxState : Option Value) (eventName : String)
    (previous : Option Value) : List Action :=
  if !(isEqual reduxState previous) then
    [Action.setMemory reduxState, Action.dispatch (broadcastEvent reduxState eventName)]
  else
    []

/-- One step of a broadcaster run, as recorded by `broadcasterRun`: the ref
content immediately before the update was processed, the input value of the
update, and the events dispatched while processing it. -/
structure BroadcastStep where
  memoryBefore : Option Value
  input : Option Value
  events : List Event
deriving DecidableEq, Repr

/-- A run of the broadcaster effect over a sequence of input updates,
threading the `previousReduxState` ref through and recording, for each
update, the ref content right before it and the events it dispatched. -/
def broadcasterRun (eventName : String) (memory : Option Value) :
    List (Option Value) → List BroadcastStep
  | [] => []
  | v :: rest =>
    let r := broadcasterEffect v eventName memory
    { memoryBefore := memory, input := v, events := r.2 } :: broadcasterRun eventName r.1 rest

/-- A live `document` event listener registration: the identity of the
`handleEvent` closure it was registered with, and the event name it was
registered for. -/
structure Subscription where
  handlerId : Nat
  eventName : String
deriving DecidableEq, Repr

/-- One invocation of a registered handler: which handler ran and the
`detail` payload of the event it received. -/
structure Delivery where
  handlerId : Nat
  payload : Option Value
deriving DecidableEq, Repr

/-- The call `document.addEventListener(eventName, handleEvent)` (line 102): adds the
registration unless an identical one is already present (the DOM ignores
duplicate registrations of the same listener for the same type). -/
def addEventListener (subs : List Subscription) (s : Subscription) : List Subscription :=
  if s ∈ subs then subs else subs ++ [s]

/-- The call `document.removeEventListener(eventName, handleEvent)` (line 104):
removes the matching registration if present. -/
def removeEventListener (subs : List Subscription) (s : Subscription) : List Subscription :=
  subs.erase s

/-- The call `document.dispatchEvent(event)` (line 91) combined with the DOM's
delivery rule: every listener currently registered for the event's name is
invoked with the event; `handleEvent` (lines 98-101) passes on
`customEvent.detail`. -/
def dispatchEvent (subs : List Subscription) (e : Event) : List Delivery :=
  (subs.filter (fun s => s.eventName == e.name)).map
    (fun s => { handlerId := s.handlerId, payload := e.detail })

/-- The operations a ReduxSync instance performs against the shared
`document`: registering a listener, unregistering it, dispatching an event. -/
inductive DocOp where
  | addListener : Subscription → DocOp
  | removeListener : Subscription → DocOp
  | dispatchTo : Event → DocOp
deriving DecidableEq, Repr

/-- One step of `document` history: the registrations live immediately
before the operation, the operation, and the handler invocations it caused. -/
structure DocStep where
  subsBefore : List Subscription
  op : DocOp
  deliveries : List Delivery
deriving DecidableEq, Repr

/-- Applying one `DocOp` to the current registrations. -/
def docApply (subs : List Subscription) : DocOp → List Subscription × List Delivery
  | DocOp.addListener s => (addEventListener subs s, [])
  | DocOp.removeListener s => (removeEventListener subs s, [])
  | DocOp.dispatchTo e => (subs, dispatchEvent subs e)

/-- A `document` history: the sequence of steps produced by a sequence of
operations, starting from a given registration state. -/
def docRun (subs : List Subscription) : List DocOp → List DocStep
  | [] => []
  | op :: rest =>
    let r := docApply subs op
    { subsBefore := subs, op := op, deliveries := r.2 } :: docRun r.1 rest

/-- Function `handleEvent` (src/example.tsx lines 98-101): extracts
`customEvent.detail` and calls `dispatchCallback` with it, unconditionally.
The callback is modelled by its call log: each invocation appends exactly
the payload it was called with. -/
def handleEvent (calls : List (Option Value)) (event : Event) : List (Option Value) :=
  calls ++ [event.detail]

/-- The call log of the forwarding callback after a subscribed listener has
received a sequence of events. -/
def listenerRun (events : List Event) : List (Option Value) :=
  events.foldl handleEvent []

/-- A JS runtime error. -/
inductive JsError where
  | typeError : String → JsError
deriving DecidableEq, Repr

/-- Function `handleEvent` under JS call semantics when the forwarding callback may
be absent (`undefined`): line 100 calls `dispatchCallback(customEvent.detail)`
with no absence guard, and calling `undefined` raises a `TypeError`. On
success the result is the list of payloads forwarded to the callback. -/
def handleEventJs (callbackPresent : Bool) (event : Event) :
    Except JsError (List (Option Value)) :=
  if callbackPresent then
    Except.ok [event.detail]
  else
    Except.error (JsError.typeError "dispatchCallback is not a function")

/-- The props of a ReduxSync instance (src/example.tsx lines 10-17); the
forwarding callback is per-instance stable and kept implicit. -/
structure Props where
  eventName : String
  reduxState : Option Value
deriving DecidableEq, Repr

/-- The per-instance state of ReduxSync: the `previousReduxState` ref cell
(line 67) and the event name its listener is currently registered under. -/
structure InstanceState where
  previousReduxState : Option Value
  subscribedName : String
deriving DecidableEq, Repr

/-- Mounting a ReduxSync instance with its first-seen props:
`useRef(reduxState)` initializes the previous-value memory to the first-seen
input (line 67), the listener effect registers under `eventName`
(lines 70-72), and the broadcaster effect runs for the first time
(lines 75-81). -/
def mountInstance (props : Props) : InstanceState × List Event :=
  let r := broadcasterEffect props.reduxState props.eventName props.reduxState
  ({ previousReduxState := r.1, subscribedName := props.eventName }, r.2)

/-- A prop update on a mounted instance. React re-runs the listener effect
exactly when its dependency array `[reduxDispatchCallback, eventName]`
changed (line 72) — cleaning up the old registration and registering under
the new name — and re-runs the broadcaster effect exactly when its
dependency array `[eventName, reduxState]` changed (line 81). -/
def updateInstance (inst : InstanceState) (oldProps newProps : Props) :
    InstanceState × List Event :=
  let subscribedName :=
    if newProps.eventName ≠ oldProps.eventName then newProps.eventName
    else inst.subscribedName
  if newProps.eventName ≠ oldProps.eventName ∨ newProps.reduxState ≠ oldProps.reduxState then
    let r := broadcasterEffect newProps.reduxState newProps.eventName inst.previousReduxState
    ({ previousReduxState := r.1, subscribedName := subscribedName }, r.2)
  else
    ({ inst with subscribedName := subscribedName }, [])

/-! ## Basic lemmas -/

/-- Lemma: `isEqual` is true exactly on equal values of our pure
representation. -/
theorem isEqual_iff (a b : Option Value) : isEqual a b = true ↔ a = b := by
  simp [isEqual]

/-- Lemma: `isEqual` is reflexive. -/
theorem isEqual_self (a : Option Value) : isEqual a a = true := by
  simp [isEqual]

/-! ## The claims -/

/-- C1: for every pair of values A and B where A is not structurally (deep)
equal to B, updating the broadcaster's input value from A to B (that is,
running the broadcaster effect with input B while the previous-value memory
holds A) overwrites the memory with B and dispatches exactly one event, on
the configured event name, whose `detail` payload is B and whose `bubbles`
flag is set. -/
theorem broadcast_on_change (eventName : String) (A B : Option Value)
    (h : isEqual B A = false) :
    broadcasterEffect B eventName A
      = (B, [{ name := eventName, detail := B, bubbles := true }]) := by
  simp [broadcasterEffect, h, broadcastEvent]

/-- Witness for C1 at the spec's example: memory `{example: 22}`, new input
`7`, channel `"EXAMPLE_EVENT"`. -/
theorem broadcast_on_change_witness :
    isEqual (some (Value.vNum 7)) (some exampleState) = false ∧
    broadcasterEffect (some (Value.vNum 7)) "EXAMPLE_EVENT" (some exampleState)
      = (some (Value.vNum 7),
         [{ name := "EXAMPLE_EVENT", detail := some (Value.vNum 7), bubbles := true }]) :=
  ⟨by decide, broadcast_on_change "EXAMPLE_EVENT" (some exampleState) (some (Value.vNum 7))
    (by decide)⟩

/-- C2: for every pair of values A and B where A is structurally (deep)
equal to B, updating the broadcaster's input value from A to B dispatches no
event and leaves the previous-value memory unchanged at A. -/
theorem no_broadcast_on_equal (eventName : String) (A B : Option Value)
    (h : isEqual B A = true) :
    broadcasterEffect B eventName A = (A, []) := by
  rw [isEqual_iff] at h
  subst h
  simp [broadcasterEffect, isEqual_self]

/-- Witness for C2: rebroadcasting the unchanged `{example: 22}` does
nothing. -/
theorem no_broadcast_on_equal_witness :
    isEqual (some exampleState) (some exampleState) = true ∧
    broadcasterEffect (some exampleState) "EXAMPLE_EVENT" (some exampleState)
      = (some exampleState, []) :=
  ⟨by decide, no_broadcast_on_equal "EXAMPLE_EVENT" (some exampleState) (some exampleState)
    (by decide)⟩

/-- C3: invariant over every sequence of input updates: whenever a step of a
broadcaster run dispatches an event, the event's payload is not structurally
equal to the content of the previous-value memory as it was immediately
before that update was processed. -/
theorem dispatched_payload_ne_memory (eventName : String) (memory : Option Value)
    (updates : List (Option Value)) (step : BroadcastStep)
    (hstep : step ∈ broadcasterRun eventName memory updates)
    (e : Event) (he : e ∈ step.events) :
    isEqual e.detail step.memoryBefore = false := by
  induction updates generalizing memory with
  | nil => simp [broadcasterRun] at hstep
  | cons v rest ih =>
    simp only [broadcasterRun, List.mem_cons] at hstep
    rcases hstep with h1 | h2
    · subst h1
      simp only at he ⊢
      by_cases hc : isEqual v memory = true
      · simp [broadcasterEffect, hc] at he
      · simp only [Bool.not_eq_true] at hc
        simp only [broadcasterEffect, hc, Bool.not_false, if_true, List.mem_singleton] at he
        subst he
        exact hc
    · exact ih _ h2

/-- Witness for C3: in the one-update run from memory `{example: 22}` to
input `7`, the dispatched payload `7` is not equal to the memory before the
update. -/
theorem dispatched_payload_ne_memory_witness :
    isEqual (some (Value.vNum 7)) (some exampleState) = false :=
  dispatched_payload_ne_memory "EXAMPLE_EVENT" (some exampleState) [some (Value.vNum 7)]
    { memoryBefore := some exampleState, input := some (Value.vNum 7),
      events := [{ name := "EXAMPLE_EVENT", detail := some (Value.vNum 7), bubbles := true }] }
    (by decide)
    { name := "EXAMPLE_EVENT", detail := some (Value.vNum 7), bubbles := true }
    (by decide)

/-- C4: the previous-value memory is initialized to the first-seen input
value, and the mount-time run of the broadcaster effect dispatches nothing
(the initial value never triggers a broadcast); on every later run the
memory is overwritten with the new value exactly when a structural change is
detected and is left untouched otherwise. -/
theorem memory_lifecycle (props : Props) (eventName : String) (v memory : Option Value) :
    mountInstance props
      = ({ previousReduxState := props.reduxState, subscribedName := props.eventName }, []) ∧
    (broadcasterEffect v eventName memory).1
      = (if isEqual v memory then memory else v) := by
  constructor
  · simp [mountInstance, broadcasterEffect, isEqual_self]
  · by_cases hc : isEqual v memory = true
    · simp [broadcasterEffect, hc]
    · simp only [Bool.not_eq_true] at hc
      simp [broadcasterEffect, hc]

/-- C5: the listener extracts each received event's `detail` payload and
invokes the forwarding callback with exactly that payload, once per event,
always — with no structural-equality suppression of duplicate payloads: the
call log of a run is exactly the list of received payloads. -/
theorem listener_forwards_every_payload (events : List Event) :
    listenerRun events = events.map Event.detail := by
  have general : ∀ (evs : List Event) (calls : List (Option Value)),
      evs.foldl handleEvent calls = calls ++ evs.map Event.detail := by
    intro evs
    induction evs with
    | nil => simp
    | cons e rest ih =>
      intro calls
      simp [handleEvent, ih]
  simpa using general events []

/-- Each step of a document history records exactly the deliveries that
applying its operation to its pre-state produces. -/
theorem docRun_step_deliveries (subs : List Subscription) (ops : List DocOp)
    (step : DocStep) (hstep : step ∈ docRun subs ops) :
    step.deliveries = (docApply step.subsBefore step.op).2 := by
  induction ops generalizing subs with
  | nil => simp [docRun] at hstep
  | cons op rest ih =>
    simp only [docRun, List.mem_cons] at hstep
    rcases hstep with h1 | h2
    · subst h1; rfl
    · exact ih _ h2

/-- Applying one document operation preserves duplicate-freeness of the
registration list. -/
theorem docApply_nodup (subs : List Subscription) (op : DocOp) (hn : subs.Nodup) :
    ((docApply subs op).1).Nodup := by
  cases op with
  | addListener s =>
    by_cases hs : s ∈ subs
    · simpa [docApply, addEventListener, hs] using hn
    · have hrw : (docApply subs (DocOp.addListener s)).1 = subs ++ [s] := by
        simp [docApply, addEventListener, hs]
      rw [hrw]
      refine List.Nodup.append hn (List.nodup_singleton s) ?_
      intro a ha hb
      simp only [List.mem_singleton] at hb
      subst hb
      exact hs ha
  | removeListener s => exact hn.erase s
  | dispatchTo e => exact hn

/-- Every step of a document history that starts from a duplicate-free
registration list has a duplicate-free pre-state. -/
theorem docRun_step_nodup (subs : List Subscription) (ops : List DocOp)
    (step : DocStep) (hn : subs.Nodup) (hstep : step ∈ docRun subs ops) :
    step.subsBefore.Nodup := by
  induction ops generalizing subs with
  | nil => simp [docRun] at hstep
  | cons op rest ih =>
    simp only [docRun, List.mem_cons] at hstep
    rcases hstep with h1 | h2
    · subst h1; exact hn
    · exact ih _ (docApply_nodup subs op hn) h2

/-- Dispatching an event delivers its payload to a handler exactly when that
handler is currently registered for the event's name. -/
theorem mem_dispatchEvent (subs : List Subscription) (e : Event) (id : Nat) :
    ({ handlerId := id, payload := e.detail } : Delivery) ∈ dispatchEvent subs e
      ↔ ({ handlerId := id, eventName := e.name } : Subscription) ∈ subs := by
  constructor
  · intro h
    simp only [dispatchEvent, List.mem_map] at h
    rcases h with ⟨s, hs, heq⟩
    rcases List.mem_filter.mp hs with ⟨hmem, hname⟩
    cases s with
    | mk sid sname =>
      simp only [Delivery.mk.injEq] at heq
      obtain ⟨h1, -⟩ := heq
      subst h1
      have h2 : sname = e.name := by simpa using hname
      subst h2
      exact hmem
  · intro h
    simp only [dispatchEvent, List.mem_map]
    exact ⟨{ handlerId := id, eventName := e.name },
      List.mem_filter.mpr ⟨h, by simp⟩, rfl⟩

/-- C6: in every document history starting from no registrations, a
dispatch step delivers payloads only from the dispatched event, and delivers
the event's payload to a handler exactly when that handler is registered for
the event's name at the moment of dispatch (so every broadcast on the
subscribed name while the registration is live is delivered, and none
before registration, after removal, or on a different name is); listener
registration and removal steps deliver nothing, and a removal step removes
the registration from the post-state. -/
theorem delivery_iff_subscribed (ops : List DocOp) (step : DocStep)
    (hstep : step ∈ docRun [] ops) :
    (∀ e, step.op = DocOp.dispatchTo e →
      (∀ d ∈ step.deliveries, d.payload = e.detail) ∧
      (∀ id : Nat,
        ({ handlerId := id, payload := e.detail } : Delivery) ∈ step.deliveries
          ↔ ({ handlerId := id, eventName := e.name } : Subscription) ∈ step.subsBefore)) ∧
    (∀ s, step.op = DocOp.addListener s ∨ step.op = DocOp.removeListener s →
      step.deliveries = []) ∧
    (∀ s, step.op = DocOp.removeListener s →
      s ∉ (docApply step.subsBefore step.op).1) := by
  have hdel := docRun_step_deliveries [] ops step hstep
  have hnodup := docRun_step_nodup [] ops step List.nodup_nil hstep
  refine ⟨?_, ?_, ?_⟩
  · intro e hop
    rw [hop] at hdel
    constructor
    · intro d hd
      rw [hdel] at hd
      simp only [docApply, dispatchEvent, List.mem_map] at hd
      rcases hd with ⟨s, -, heq⟩
      subst heq
      rfl
    · intro id
      rw [hdel]
      exact mem_dispatchEvent step.subsBefore e id
  · intro s hop
    rcases hop with h | h <;> rw [h] at hdel <;> simpa [docApply] using hdel
  · intro s hop
    rw [hop]
    simp only [docApply, removeEventListener]
    intro hmem
    have := (List.Nodup.mem_erase_iff hnodup).mp hmem
    exact this.1 rfl

/-- Witness for C6: after registering handler 0 for "EXAMPLE_EVENT",
dispatching `{example: 22}` on that channel delivers it to handler 0. -/
theorem delivery_iff_subscribed_witness :
    ({ handlerId := 0, payload := some exampleState } : Delivery)
        ∈ [({ handlerId := 0, payload := some exampleState } : Delivery)]
      ↔ ({ handlerId := 0, eventName := "EXAMPLE_EVENT" } : Subscription)
        ∈ [({ handlerId := 0, eventName := "EXAMPLE_EVENT" } : Subscription)] :=
  ((delivery_iff_subscribed
      [DocOp.addListener { handlerId := 0, eventName := "EXAMPLE_EVENT" },
       DocOp.dispatchTo { name := "EXAMPLE_EVENT", detail := some exampleState, bubbles := true }]
      { subsBefore := [{ handlerId := 0, eventName := "EXAMPLE_EVENT" }],
        op := DocOp.dispatchTo
          { name := "EXAMPLE_EVENT", detail := some exampleState, bubbles := true },
        deliveries := [{ handlerId := 0, payload := some exampleState }] }
      (by decide)).1
    { name := "EXAMPLE_EVENT", detail := some exampleState, bubbles := true } rfl).2 0

/-- C7 counterexample: with the forwarding callback absent, receiving an
event on the subscribed name raises a TypeError — it is not the case that no
error is raised: line 100 calls `dispatchCallback(customEvent.detail)` with
no absence guard. -/
theorem absent_callback_raises_concrete :
    handleEventJs false
        { name := "EXAMPLE_EVENT", detail := some exampleState, bubbles := true }
      = Except.error (JsError.typeError "dispatchCallback is not a function") := rfl

/-- C7 amended: if the forwarding callback is absent, nothing is forwarded,
but the receive handler raises a TypeError on every event received on the
subscribed name (and the props interface in fact makes the callback a
required input). -/
theorem absent_callback_raises (event : Event) :
    handleEventJs false event
      = Except.error (JsError.typeError "dispatchCallback is not a function") := rfl

/-- C8: evaluating the broadcaster effect at the failing input — the input
value absent while the previous-value memory holds `{example: 22}` — shows
that, contrary to the claim (and to the code's own comment on line 76,
which restricts broadcasting to a provided state), the code overwrites the
memory with the absent value and dispatches a bubbling event whose payload
is absent. -/
theorem absent_value_still_broadcasts :
    broadcasterEffect none "EXAMPLE_EVENT" (some exampleState)
      = (none, [{ name := "EXAMPLE_EVENT", detail := none, bubbles := true }]) := rfl

/-- C9: when a change is detected, the broadcaster performs the
previous-value ref write (line 78) strictly before the event dispatch
(line 79) in its action order, and a synchronous feedback of a structurally
equal value as the instance's next input triggers no further broadcast. -/
theorem write_before_dispatch (eventName : String) (A B : Option Value)
    (h : isEqual B A = false) :
    broadcasterEffectActions B eventName A
      = [Action.setMemory B, Action.dispatch (broadcastEvent B eventName)] ∧
    (∀ C, isEqual C B = true →
      (broadcasterEffect C eventName (broadcasterEffect B eventName A).1).2 = []) := by
  constructor
  · simp [broadcasterEffectActions, h]
  · intro C hC
    rw [isEqual_iff] at hC
    have h1 : (broadcasterEffect B eventName A).1 = B := by
      simp [broadcasterEffect, h]
    rw [h1, hC]
    simp [broadcasterEffect, isEqual_self]

/-- Witness for C9: updating from `{example: 22}` to `7` writes the ref
first, then dispatches; echoing `7` back dispatches nothing. -/
theorem write_before_dispatch_witness :
    broadcasterEffectActions (some (Value.vNum 7)) "EXAMPLE_EVENT" (some exampleState)
      = [Action.setMemory (some (Value.vNum 7)),
         Action.dispatch (broadcastEvent (some (Value.vNum 7)) "EXAMPLE_EVENT")] ∧
    (broadcasterEffect (some (Value.vNum 7)) "EXAMPLE_EVENT"
        (broadcasterEffect (some (Value.vNum 7)) "EXAMPLE_EVENT" (some exampleState)).1).2
      = [] :=
  ⟨(write_before_dispatch "EXAMPLE_EVENT" (some exampleState) (some (Value.vNum 7))
      (by decide)).1,
   (write_before_dispatch "EXAMPLE_EVENT" (some exampleState) (some (Value.vNum 7))
      (by decide)).2 (some (Value.vNum 7)) (by decide)⟩

/-- C10: changing only the event name re-runs the listener effect, which
re-subscribes under the new name, while the previous-value memory is left
unchanged and nothing is dispatched; afterwards, an input structurally
equal to the last value observed under the old name still triggers no
broadcast on the new channel. -/
theorem name_change_preserves_memory (oldName newName : String) (v memory : Option Value)
    (hname : newName ≠ oldName) (hmem : isEqual v memory = true) :
    updateInstance { previousReduxState := memory, subscribedName := oldName }
        { eventName := oldName, reduxState := v } { eventName := newName, reduxState := v }
      = ({ previousReduxState := memory, subscribedName := newName }, []) ∧
    (∀ w, isEqual w memory = true →
      (updateInstance { previousReduxState := memory, subscribedName := newName }
          { eventName := newName, reduxState := v }
          { eventName := newName, reduxState := w }).2 = []) := by
  rw [isEqual_iff] at hmem
  subst hmem
  constructor
  · simp [updateInstance, hname, broadcasterEffect, isEqual_self]
  · intro w hw
    rw [isEqual_iff] at hw
    subst hw
    simp [updateInstance]

/-- Witness for C10: renaming the channel from "EXAMPLE_EVENT" to
"EXAMPLE_EVENT_2" with the state `{example: 22}` unchanged re-subscribes
but broadcasts nothing, and a repeat of `{example: 22}` under the new name
broadcasts nothing either. -/
theorem name_change_preserves_memory_witness :
    updateInstance
        { previousReduxState := some exampleState, subscribedName := "EXAMPLE_EVENT" }
        { eventName := "EXAMPLE_EVENT", reduxState := some exampleState }
        { eventName := "EXAMPLE_EVENT_2", reduxState := some exampleState }
      = ({ previousReduxState := some exampleState, subscribedName := "EXAMPLE_EVENT_2" },
         []) ∧
    (updateInstance
        { previousReduxState := some exampleState, subscribedName := "EXAMPLE_EVENT_2" }
        { eventName := "EXAMPLE_EVENT_2", reduxState := some exampleState }
        { eventName := "EXAMPLE_EVENT_2", reduxState := some exampleState }).2 = [] :=
  ⟨(name_change_preserves_memory "EXAMPLE_EVENT" "EXAMPLE_EVENT_2"
      (some exampleState) (some exampleState) (by decide) (by decide)).1,
   (name_change_preserves_memory "EXAMPLE_EVENT" "EXAMPLE_EVENT_2"
      (some exampleState) (some exampleState) (by decide) (by decide)).2
     (some exampleState) (by decide)⟩

end ReduxSync
